import Mathlib

/-!
Verification of the waelio-messaging hub against its specification.

The repository contains two implementations of the hub:
* `src/server.js` — the monolithic server (registry, router, in-memory fallback store);
* `src/dist/MessagingHub.js` — the `MessagingHub` class used by the modular entry points.

This file gives a shallow embedding of the registry, the message router
(`handleClientMessage`), the per-frame parse/dispatch wrapper, the startup
persistence selection of both implementations, and both in-memory fallback
stores.  Stateful JS code is modelled by explicit state passing: a handler
takes the shared state and returns the new state together with the list of
outbound sends (target client id paired with the outbound envelope) and the
list of records handed to the persistence collaborator.  Identities, payloads
and room ids are opaque strings; timestamps are naturals; the uuid generator
and the current time are passed in as an environment.  Exceptions thrown by
the JS code are modelled with `Except Unit`.
-/

namespace Waelio

/-- `DB_HISTORY_LIMIT` from both `server.js` and `MessagingHub.js`. -/
def DB_HISTORY_LIMIT : Nat := 100

/-- `IN_MEMORY_HISTORY_LIMIT` from both `server.js` and `MessagingHub.js`:
the capacity of the in-memory fallback store. -/
def IN_MEMORY_HISTORY_LIMIT : Nat := 10

/-- The single-quote character used inside the JS template-literal error texts. -/
def sq : String := "\x27"

/-- A persisted message record (`dbMessage` / `dbBroadcastMessage` in the source).
`docId` models the `_id` field (absent until assigned); `recipientId` is absent
(`none`) on broadcast records. -/
structure DbRecord where
  docId : Option String
  senderId : String
  recipientId : Option String
  payload : String
  isBroadcast : Bool
  timestamp : Nat
deriving Repr, DecidableEq

/-- One live connection as the registry sees it: the server-assigned
`ws.clientId` and the `ws.roomId` field (`none` models JS `null`). -/
structure Conn where
  clientId : String
  roomId : Option String
deriving Repr, DecidableEq

/-- Outbound envelopes (hub → client), one constructor per `type` value.
For `message`, the third field models the optional `isBroadcast` key:
`none` when absent (route), `some true` (broadcast), `some false` (room). -/
inductive OutMsg where
  | registerSuccess (id : String)
  | userList (users : List String)
  | message (from_ : String) (payload : String) (isBroadcast : Option Bool)
  | messageHistory (history : List DbRecord)
  | userTyping (id : String)
  | userStoppedTyping (id : String)
  | joinedRoom (roomId : String) (with_ : String)
  | partnerLeftRoom (roomId : String)
  | info (msg : String)
  | error (msg : String)
deriving Repr, DecidableEq

/-- Inbound envelopes (client → hub), dispatched on the `type` field.
`joinRoom`'s argument models `message.with` (`none` when the key is absent);
`unknown t` covers every unrecognized `type` string. -/
inductive Envelope where
  | route (to_ : String) (payload : String)
  | broadcast (payload : String)
  | getHistory
  | startTyping
  | stopTyping
  | joinRoom (with_ : Option String)
  | roomMessage (payload : String)
  | unknown (t : String)
deriving Repr, DecidableEq

/-- The `$or` query built by `get-history`:
`{ $or : [ { recipientId }, { senderId }, { isBroadcast : true } ] }`. -/
structure OrQuery where
  recipientId : String
  senderId : String
deriving Repr, DecidableEq

/-- The filter predicate both in-memory stores apply for that query:
`msg.isBroadcast || msg.senderId === senderId || msg.recipientId === recipientId`
(a record without a `recipientId` never matches the third clause). -/
def matchesOr (q : OrQuery) (m : DbRecord) : Bool :=
  m.isBroadcast || m.senderId == q.senderId || m.recipientId == some q.recipientId

/-! ### The `MessagingHub` in-memory fallback store (`_setupInMemoryStore`) -/

/-- `insertOne` of the hub's fallback store: assign a fresh `_id`, push, and
drop the oldest entry (`shift`) once the length exceeds the capacity. -/
def hubInsertOne (msgs : List DbRecord) (m : DbRecord) (newId : String) : List DbRecord :=
  let pushed := msgs ++ [{ m with docId := some newId }]
  if pushed.length > IN_MEMORY_HISTORY_LIMIT then pushed.tail else pushed

/-- Run a sequence of `insertOne` calls (each paired with its generated id). -/
def hubInsertAll (msgs : List DbRecord) (inserts : List (DbRecord × String)) : List DbRecord :=
  inserts.foldl (fun acc p => hubInsertOne acc p.1 p.2) msgs

/-- The object returned by the hub store's `find`: it carries the already
filtered array, and its `sort` and `limit` methods take an argument but
return the same data unchanged. -/
structure HubFindResult where
  filtered : List DbRecord
deriving Repr, DecidableEq

/-- `find` of the hub's fallback store: filters when a `$or` query is present,
otherwise returns everything. -/
def hubFind (msgs : List DbRecord) (q : Option OrQuery) : HubFindResult :=
  match q with
  | some oq => ⟨msgs.filter (fun m => matchesOr oq m)⟩
  | none => ⟨msgs⟩

/-- `sort` of the hub store's find result: the sort key is ignored. -/
def HubFindResult.sort (r : HubFindResult) (_sortKey : Nat) : HubFindResult := r

/-- `limit` of the hub store's find result: the limit argument is ignored. -/
def HubFindResult.limit (r : HubFindResult) (_n : Nat) : HubFindResult := r

/-- `toArray` of the hub store's find result. -/
def HubFindResult.toArray (r : HubFindResult) : List DbRecord := r.filtered

/-- The history array the `MessagingHub` `get-history` handler obtains from the
in-memory store: `find(query).sort({timestamp:1}).limit(historyLimit).toArray()`
with the `$or` query using the requester id as both sender and recipient.
The sort key `{timestamp:1}` is modelled as the number 1 (it is ignored). -/
def hubGetHistoryReply (msgs : List DbRecord) (requesterId : String) (historyLimit : Nat) :
    List DbRecord :=
  (((hubFind msgs (some ⟨requesterId, requesterId⟩)).sort 1).limit historyLimit).toArray

/-- The last `n` elements of a list (eviction keeps exactly these). -/
def lastN (n : Nat) (l : List α) : List α := l.drop (l.length - n)

/-- The records as the hub's `insertOne` stores them: each incoming record
with its generated `_id` attached. -/
def storedRecords (inserts : List (DbRecord × String)) : List DbRecord :=
  inserts.map (fun p => { p.1 with docId := some p.2 })

/-! ### The `server.js` in-memory fallback store -/

/-- `insertOne` of `server.js`' fallback store: push, then `shift` once the
length exceeds the capacity (no `_id` is assigned here; the caller already
put one in the record). -/
def serverInsertOne (msgs : List DbRecord) (m : DbRecord) : List DbRecord :=
  let pushed := msgs ++ [m]
  if pushed.length > IN_MEMORY_HISTORY_LIMIT then pushed.tail else pushed

/-- The object returned by `server.js`' fallback `find`: it exposes ONLY
`toArray` — it has no `sort` method, so the `get-history` handler's chained
`.sort({timestamp:1})` call is a `TypeError` at runtime. -/
structure ServerFindResult where
  filtered : List DbRecord
deriving Repr, DecidableEq

/-- `toArray` of the `server.js` fallback find result. -/
def ServerFindResult.toArray (r : ServerFindResult) : List DbRecord := r.filtered

/-- `find` of `server.js`' fallback store (same filter as the hub's). -/
def serverFind (msgs : List DbRecord) (q : OrQuery) : ServerFindResult :=
  ⟨msgs.filter (fun m => matchesOr q m)⟩

/-! ### Startup persistence selection -/

/-- Outcome of startup: either the process terminated with an exit code, or
the hub runs (with the in-memory fallback store active or not). -/
inductive StartOutcome where
  | exited (code : Nat)
  | running (inMemoryFallback : Bool)
deriving Repr, DecidableEq

/-- `startServer` of `server.js`: a `MongoClient` exists iff `MONGO_URI` is set;
if it is set and `connect()` fails the process calls `process.exit(1)`;
the in-memory store is installed only when no URI is configured. -/
def startServer (mongoConfigured : Bool) (connectOk : Bool) : StartOutcome :=
  if mongoConfigured then
    if connectOk then StartOutcome.running false
    else StartOutcome.exited 1
  else
    StartOutcome.running true

/-- `_setupPersistence` of `MessagingHub.js`: with a `mongoURI`, a connection
failure is caught and `_setupInMemoryStore()` is called; without a URI the
in-memory store is installed directly; nothing ever exits the process. -/
def setupPersistence (mongoURIConfigured : Bool) (connectOk : Bool) : StartOutcome :=
  if mongoURIConfigured then
    if connectOk then StartOutcome.running false
    else StartOutcome.running true
  else
    StartOutcome.running true

/-! ### The `server.js` registry and router -/

/-- The shared mutable state of `server.js`: the `clients` map (in insertion
order, keys unique), whether a `MongoClient` was initialized (`MONGO_URI`
present), and the fallback store's array (used only when `hasMongo = false`). -/
structure ServerState where
  clients : List Conn
  hasMongo : Bool
  inMemoryMessages : List DbRecord
deriving Repr, DecidableEq

/-- Ambient inputs of one handler invocation: the value `uuidv4()` would
return for a new record id, the current time, and the durable store's
(external) answer to a history query — `Except.error` models a rejected
promise, caught by the handler's `.catch`. -/
structure Env where
  newId : String
  now : Nat
  mongoHistory : Except Unit (List DbRecord)

/-- Result of handling one frame: the new shared state, the outbound sends in
issue order (target client id, envelope), and the records passed to
`messagesCollection.insertOne`. -/
structure HandlerResult where
  state : ServerState
  sends : List (String × OutMsg)
  persisted : List DbRecord

/-- `clients.get(id)` on the insertion-ordered map. -/
def getClient (clients : List Conn) (id : String) : Option Conn :=
  clients.find? (fun c => c.clientId == id)

/-- `broadcastToOthers`: send to every registered connection except the sender,
in registry iteration order. -/
def broadcastToOthers (clients : List Conn) (senderId : String) (m : OutMsg) :
    List (String × OutMsg) :=
  (clients.filter (fun c => c.clientId != senderId)).map (fun c => (c.clientId, m))

/-- `getRoomId`: sort the two ids (JS default string order) and join with a
hyphen, so the result is independent of who initiates. -/
def getRoomId (id1 id2 : String) : String :=
  if id1 ≤ id2 then id1 ++ "-" ++ id2 else id2 ++ "-" ++ id1

/-- `findOtherParticipant`: first registry entry (iteration order) whose
`roomId` matches and whose `clientId` differs from `ownId`. -/
def findOtherParticipant (clients : List Conn) (ownId : String) (roomId : String) : Option Conn :=
  clients.find? (fun c => c.roomId == some roomId && c.clientId != ownId)

/-- Mutating `ws.roomId` on the connection object registered under `id`. -/
def setRoom (clients : List Conn) (id : String) (r : Option String) : List Conn :=
  clients.map (fun c => if c.clientId == id then { c with roomId := r } else c)

/-- The `senderId || 'unknown'` fallback used for the `from` field. -/
def orUnknown (s : String) : String := if s == "" then "unknown" else s

/-- Apply one `messagesCollection.insertOne(m)`: with a durable store the
record goes to the external collaborator (no local state change); otherwise
it goes into the fallback array with oldest-eviction. -/
def applyInsert (st : ServerState) (m : DbRecord) : ServerState :=
  if st.hasMongo then st
  else { st with inMemoryMessages := serverInsertOne st.inMemoryMessages m }

/-- `handleClientMessage` of `server.js`, the switch over `message.type`.
`sender` is the `ws` object of the sending connection.  The only path that
can throw is `get-history` with the fallback store active: there
`find(query)` returns an object without a `sort` method, so the chained
`.sort({timestamp:1})` raises a `TypeError` (modelled as `Except.error ()`)
before any send, persist or state change has happened. -/
def handleClientMessage (st : ServerState) (sender : Conn) (msg : Envelope) (env : Env) :
    Except Unit HandlerResult :=
  match msg with
  | .route to_ payload =>
    match getClient st.clients to_ with
    | some _ =>
      let senderId := sender.clientId
      let outboundMessage := OutMsg.message (orUnknown senderId) payload none
      let dbMessage : DbRecord :=
        { docId := some env.newId, senderId := senderId, recipientId := some to_,
          payload := payload, isBroadcast := false, timestamp := env.now }
      Except.ok ⟨applyInsert st dbMessage, [(to_, outboundMessage)], [dbMessage]⟩
    | none =>
      Except.ok ⟨st,
        [(sender.clientId,
          OutMsg.error ("Client " ++ sq ++ to_ ++ sq ++ " not found or not connected."))], []⟩
  | .broadcast payload =>
    let broadcastSenderId := sender.clientId
    let broadcastMessage := OutMsg.message (orUnknown broadcastSenderId) payload (some true)
    let dbBroadcastMessage : DbRecord :=
      { docId := some env.newId, senderId := broadcastSenderId, recipientId := none,
        payload := payload, isBroadcast := true, timestamp := env.now }
    Except.ok ⟨applyInsert st dbBroadcastMessage,
      broadcastToOthers st.clients broadcastSenderId broadcastMessage, [dbBroadcastMessage]⟩
  | .getHistory =>
    if sender.clientId == "" then
      Except.ok ⟨st,
        [(sender.clientId, OutMsg.error "Cannot get history: client is not registered.")], []⟩
    else if st.hasMongo then
      match env.mongoHistory with
      | .ok history =>
        Except.ok ⟨st, [(sender.clientId, OutMsg.messageHistory history)], []⟩
      | .error _ =>
        Except.ok ⟨st,
          [(sender.clientId, OutMsg.error "Failed to retrieve message history.")], []⟩
    else
      Except.error ()
  | .startTyping =>
    Except.ok ⟨st,
      broadcastToOthers st.clients sender.clientId (OutMsg.userTyping sender.clientId), []⟩
  | .stopTyping =>
    Except.ok ⟨st,
      broadcastToOthers st.clients sender.clientId (OutMsg.userStoppedTyping sender.clientId), []⟩
  | .joinRoom with_ =>
    let selfId := sender.clientId
    match with_ with
    | none =>
      Except.ok ⟨st, [(selfId, OutMsg.error "Invalid partner ID provided.")], []⟩
    | some partnerId =>
      if partnerId == "" || partnerId == selfId then
        Except.ok ⟨st, [(selfId, OutMsg.error "Invalid partner ID provided.")], []⟩
      else
        match getClient st.clients partnerId with
        | none =>
          Except.ok ⟨st,
            [(selfId, OutMsg.error ("User " ++ sq ++ partnerId ++ sq ++ " is not online."))], []⟩
        | some _ =>
          let roomId := getRoomId selfId partnerId
          let clients2 :=
            setRoom (setRoom st.clients selfId (some roomId)) partnerId (some roomId)
          Except.ok ⟨{ st with clients := clients2 },
            [(selfId, OutMsg.joinedRoom roomId partnerId),
             (partnerId, OutMsg.joinedRoom roomId selfId)], []⟩
  | .roomMessage payload =>
    match sender.roomId with
    | none =>
      Except.ok ⟨st, [(sender.clientId, OutMsg.error "You are not in a room.")], []⟩
    | some roomId =>
      match findOtherParticipant st.clients sender.clientId roomId with
      | some other =>
        Except.ok ⟨st,
          [(other.clientId, OutMsg.message sender.clientId payload (some false))], []⟩
      | none =>
        Except.ok ⟨st, [], []⟩
  | .unknown t =>
    Except.ok ⟨st,
      [(sender.clientId, OutMsg.error ("Unknown message type: " ++ sq ++ t ++ sq ++ "."))], []⟩

/-- The per-frame `ws.on('message')` wrapper of `server.js`: parse the frame,
dispatch it, and on any synchronous exception (parse failure, or a throw out
of `handleClientMessage`) reply to the sender with the fixed error envelope.
Discarding the thrown handler's partial result is faithful because the only
throwing path performs no effect before the throw. -/
def onMessage (st : ServerState) (sender : Conn) (frame : Except Unit Envelope) (env : Env) :
    HandlerResult :=
  match frame with
  | .error _ => ⟨st, [(sender.clientId, OutMsg.error "Invalid JSON format.")], []⟩
  | .ok m =>
    match handleClientMessage st sender m env with
    | .ok r => r
    | .error _ => ⟨st, [(sender.clientId, OutMsg.error "Invalid JSON format.")], []⟩

/-! ### General lemmas about the eviction-bounded store -/

theorem lastN_cons_of_le (a : α) (l : List α) (n : Nat) (h : n ≤ l.length) :
    lastN n (a :: l) = lastN n l := by
  unfold lastN
  have hl : (a :: l).length - n = (l.length - n) + 1 := by
    simp only [List.length_cons]; omega
  rw [hl, List.drop_succ_cons]

theorem lastN_of_le (l : List α) (n : Nat) (h : l.length ≤ n) : lastN n l = l := by
  unfold lastN
  have : l.length - n = 0 := by omega
  rw [this, List.drop_zero]

theorem hubInsertOne_length_le (acc : List DbRecord) (m : DbRecord) (id : String)
    (h : acc.length ≤ IN_MEMORY_HISTORY_LIMIT) :
    (hubInsertOne acc m id).length ≤ IN_MEMORY_HISTORY_LIMIT := by
  simp only [hubInsertOne]
  split
  · simp only [List.length_tail, List.length_append, List.length_singleton]
    omega
  · next hlen =>
    simp only [gt_iff_lt, not_lt] at hlen
    exact hlen

theorem hubInsertOne_eq_lastN (acc : List DbRecord) (m : DbRecord) (id : String)
    (h : acc.length ≤ IN_MEMORY_HISTORY_LIMIT) :
    hubInsertOne acc m id =
      lastN IN_MEMORY_HISTORY_LIMIT (acc ++ [{ m with docId := some id }]) := by
  simp only [hubInsertOne]
  split
  · next hlen =>
    simp only [gt_iff_lt] at hlen
    unfold lastN
    have hl : (acc ++ [{ m with docId := some id }]).length - IN_MEMORY_HISTORY_LIMIT = 1 := by
      simp only [List.length_append, List.length_singleton] at *
      omega
    rw [hl, List.drop_one]
  · next hlen =>
    simp only [gt_iff_lt, not_lt] at hlen
    exact (lastN_of_le _ _ hlen).symm

theorem hubInsertAll_eq_lastN (inserts : List (DbRecord × String)) (acc : List DbRecord)
    (h : acc.length ≤ IN_MEMORY_HISTORY_LIMIT) :
    hubInsertAll acc inserts = lastN IN_MEMORY_HISTORY_LIMIT (acc ++ storedRecords inserts) := by
  induction inserts generalizing acc with
  | nil =>
    simp only [hubInsertAll, List.foldl_nil, storedRecords, List.map_nil, List.append_nil]
    exact (lastN_of_le _ _ h).symm
  | cons p tl ih =>
    have step : hubInsertAll acc (p :: tl) = hubInsertAll (hubInsertOne acc p.1 p.2) tl := rfl
    rw [step, ih _ (hubInsertOne_length_le acc p.1 p.2 h)]
    have hsr : storedRecords (p :: tl) =
        { p.1 with docId := some p.2 } :: storedRecords tl := rfl
    rw [hsr]
    simp only [hubInsertOne]
    split
    · next hlen =>
      -- eviction: the pushed list has length capacity + 1, so `acc` is nonempty
      simp only [gt_iff_lt, List.length_append, List.length_singleton] at hlen
      match acc, h with
      | a :: as, _ =>
        have h1 : ((a :: as) ++ [{ p.1 with docId := some p.2 }]).tail =
            as ++ [{ p.1 with docId := some p.2 }] := rfl
        rw [h1]
        have h2 : (as ++ [{ p.1 with docId := some p.2 }]) ++ storedRecords tl =
            as ++ ({ p.1 with docId := some p.2 } :: storedRecords tl) := by
          rw [List.append_assoc]; rfl
        have h3 : (a :: as) ++ ({ p.1 with docId := some p.2 } :: storedRecords tl) =
            a :: (as ++ ({ p.1 with docId := some p.2 } :: storedRecords tl)) := rfl
        rw [h2, h3, lastN_cons_of_le]
        simp only [List.length_append, List.length_cons] at *
        omega
    · rw [List.append_assoc]
      rfl

theorem filter_drop_suffix (p : DbRecord → Bool) (l : List DbRecord) (k : Nat) :
    List.IsSuffix ((l.drop k).filter p) (l.filter p) :=
  ⟨(l.take k).filter p, by rw [← List.filter_append, List.take_append_drop]⟩

/-! ### The claims -/

/-- C1: the claim states that a configured durable store whose connection
fails at startup makes the hub fall back to the in-memory store and never
terminates the process.  `server.js` refutes it: `startServer` with a
configured `MONGO_URI` and a failed `connect()` calls `process.exit(1)`
instead of activating the fallback. -/
theorem c1_counterexample :
    startServer true false = StartOutcome.exited 1 ∧
    startServer true false ≠ StartOutcome.running true := by decide

/-- C1 (amended): the `MessagingHub` class behaves as claimed — a connection
failure activates the in-memory fallback and no startup path ever exits the
process — but the monolithic `server.js` exits with code 1 when a configured
durable store fails to connect; its fallback activates only when no
connection string is configured at all. -/
theorem c1_hub_falls_back_server_exits :
    (∀ (cfg ok : Bool) (code : Nat), setupPersistence cfg ok ≠ StartOutcome.exited code) ∧
    setupPersistence true false = StartOutcome.running true ∧
    startServer true false = StartOutcome.exited 1 ∧
    startServer false false = StartOutcome.running true := by
  refine ⟨?_, rfl, rfl, rfl⟩
  intro cfg ok code hcontra
  cases cfg <;> cases ok <;> simp [setupPersistence] at hcontra

/-- C3: a `route` envelope naming an unregistered recipient produces exactly
one `error` envelope, sent to the sender and naming the missing recipient;
nothing is persisted and the whole shared state (registry membership and
every connection's room) is returned unchanged. -/
theorem c3_route_miss (st : ServerState) (sender : Conn) (to_ payload : String) (env : Env)
    (h : getClient st.clients to_ = none) :
    handleClientMessage st sender (.route to_ payload) env =
      .ok ⟨st, [(sender.clientId,
        OutMsg.error ("Client " ++ sq ++ to_ ++ sq ++ " not found or not connected."))], []⟩ := by
  simp only [handleClientMessage, h]

/-- C3 witness: concrete one-client registry, routing to an id nobody has. -/
theorem c3_route_miss_witness :
    getClient ([⟨"a1", none⟩] : List Conn) "zz" = none ∧
    handleClientMessage ⟨[⟨"a1", none⟩], false, []⟩ ⟨"a1", none⟩ (.route "zz" "x")
        ⟨"m1", 0, Except.ok []⟩ =
      .ok ⟨⟨[⟨"a1", none⟩], false, []⟩, [("a1",
        OutMsg.error ("Client " ++ sq ++ "zz" ++ sq ++ " not found or not connected."))], []⟩ :=
  ⟨by decide, c3_route_miss _ _ _ _ _ (by decide)⟩

/-- C8: an inbound frame that fails to parse makes the wrapper reply to the
sender with exactly one `error` envelope naming the parse failure; no other
connection receives anything, nothing is persisted, and the state (registry
membership and every room field) is returned unchanged — the wrapper is a
total function, so the hub does not crash. -/
theorem c8_malformed_frame (st : ServerState) (sender : Conn) (env : Env) :
    onMessage st sender (Except.error ()) env =
      ⟨st, [(sender.clientId, OutMsg.error "Invalid JSON format.")], []⟩ := rfl

/-- C9: in the `MessagingHub` fallback store, the `find(...).sort(...).limit(n)`
chain returns the filtered entries in insertion order whatever the sort key
and whatever `n`; the only bound on the data is the eviction capacity
enforced at insertion time. -/
theorem c9_find_ignores_sort_and_limit :
    (∀ (msgs : List DbRecord) (q : OrQuery) (sortKey n : Nat),
      (((hubFind msgs (some q)).sort sortKey).limit n).toArray =
        msgs.filter (fun m => matchesOr q m)) ∧
    (∀ inserts : List (DbRecord × String),
      (hubInsertAll [] inserts).length ≤ IN_MEMORY_HISTORY_LIMIT) := by
  constructor
  · intro msgs q sortKey n
    rfl
  · intro inserts
    rw [hubInsertAll_eq_lastN inserts [] (by simp)]
    simp only [lastN, List.length_drop, List.nil_append]
    omega

/-- C2: the claim quantifies over every currently registered recipient named
by the `to` field and asserts that the sender receives no copy.  It fails
when `to` names the sender itself (a registered recipient): the hub then
forwards the message straight back to the sender. -/
theorem c2_counterexample :
    getClient ([⟨"a1", none⟩] : List Conn) "a1" = some ⟨"a1", none⟩ ∧
    handleClientMessage ⟨[⟨"a1", none⟩], false, []⟩ ⟨"a1", none⟩ (.route "a1" "hi")
        ⟨"m1", 0, Except.ok []⟩ =
      .ok ⟨⟨[⟨"a1", none⟩], false, [⟨some "m1", "a1", some "a1", "hi", false, 0⟩]⟩,
           [("a1", OutMsg.message "a1" "hi" none)],
           [⟨some "m1", "a1", some "a1", "hi", false, 0⟩]⟩ :=
  ⟨rfl, rfl⟩

/-- C2 (amended): for every registered sender and every `route` envelope whose
`to` field names a currently registered recipient DISTINCT from the sender,
the hub persists exactly one `{senderId, recipientId, payload,
isBroadcast:false}` record and sends exactly one `{type:message, from, payload}`
to that recipient and to nobody else; the sender receives no copy.  (When the
sender routes to its own id it receives the message itself, as the
counterexample shows.) -/
theorem c2_route_delivers_once (st : ServerState) (sender dest : Conn)
    (to_ payload : String) (env : Env)
    (hdest : getClient st.clients to_ = some dest)
    (hne : to_ ≠ sender.clientId)
    (hid : sender.clientId ≠ "") :
    handleClientMessage st sender (.route to_ payload) env =
      .ok ⟨applyInsert st ⟨some env.newId, sender.clientId, some to_, payload, false, env.now⟩,
           [(to_, OutMsg.message sender.clientId payload none)],
           [⟨some env.newId, sender.clientId, some to_, payload, false, env.now⟩]⟩ ∧
    ∀ m : OutMsg, (sender.clientId, m) ∉ [(to_, OutMsg.message sender.clientId payload none)] := by
  constructor
  · have hor : orUnknown sender.clientId = sender.clientId := by simp [orUnknown, hid]
    simp only [handleClientMessage, hdest, hor]
  · intro m hm
    simp only [List.mem_singleton, Prod.mk.injEq] at hm
    exact hne hm.1.symm

/-- C2 witness: two registered clients; `a1` routes to `b1`. -/
theorem c2_route_delivers_once_witness :
    getClient ([⟨"a1", none⟩, ⟨"b1", none⟩] : List Conn) "b1" = some ⟨"b1", none⟩ ∧
    ("b1" : String) ≠ "a1" ∧ ("a1" : String) ≠ "" ∧
    (handleClientMessage ⟨[⟨"a1", none⟩, ⟨"b1", none⟩], false, []⟩ ⟨"a1", none⟩
        (.route "b1" "hi") ⟨"m1", 0, Except.ok []⟩ =
      .ok ⟨applyInsert ⟨[⟨"a1", none⟩, ⟨"b1", none⟩], false, []⟩
             ⟨some "m1", "a1", some "b1", "hi", false, 0⟩,
           [("b1", OutMsg.message "a1" "hi" none)],
           [⟨some "m1", "a1", some "b1", "hi", false, 0⟩]⟩ ∧
      ∀ m : OutMsg, ("a1", m) ∉ [("b1", OutMsg.message "a1" "hi" none)]) :=
  ⟨by decide, by decide, by decide,
   c2_route_delivers_once _ _ ⟨"b1", none⟩ _ _ _ (by decide) (by decide) (by decide)⟩

/-- C5: the canonical room id is order-independent, and a successful
`join-room` between the sender and a registered partner sets the same room id
on both connections and sends both participants a `joined-room` envelope with
that one room id, each naming the other participant in the `with` field. -/
theorem c5_room_symmetry :
    (∀ x y : String, getRoomId x y = getRoomId y x) ∧
    (∀ (st : ServerState) (sender d : Conn) (partnerId : String) (env : Env),
      partnerId ≠ "" → partnerId ≠ sender.clientId →
      getClient st.clients partnerId = some d →
      handleClientMessage st sender (.joinRoom (some partnerId)) env =
        .ok ⟨⟨setRoom (setRoom st.clients sender.clientId (some (getRoomId sender.clientId partnerId))) partnerId (some (getRoomId sender.clientId partnerId)),
              st.hasMongo, st.inMemoryMessages⟩,
             [(sender.clientId,
                OutMsg.joinedRoom (getRoomId sender.clientId partnerId) partnerId),
              (partnerId,
                OutMsg.joinedRoom (getRoomId sender.clientId partnerId) sender.clientId)],
             []⟩) := by
  constructor
  · intro x y
    unfold getRoomId
    by_cases hxy : x ≤ y <;> by_cases hyx : y ≤ x
    · have hx : x = y := le_antisymm hxy hyx
      subst hx
      rfl
    · rw [if_pos hxy, if_neg hyx]
    · rw [if_neg hxy, if_pos hyx]
    · exact absurd (le_of_not_le hxy) hyx
  · intro st sender d partnerId env h1 h2 hd
    have hc : (partnerId == "" || partnerId == sender.clientId) = false := by
      simp [h1, h2]
    simp [handleClientMessage, hc, hd]

/-- C5 witness: `a1` joins a room with the registered partner `b1`. -/
theorem c5_room_symmetry_witness :
    getRoomId "b1" "a1" = getRoomId "a1" "b1" ∧
    handleClientMessage ⟨[⟨"a1", none⟩, ⟨"b1", none⟩], false, []⟩ ⟨"a1", none⟩
        (.joinRoom (some "b1")) ⟨"m1", 0, Except.ok []⟩ =
      .ok ⟨⟨setRoom (setRoom [⟨"a1", none⟩, ⟨"b1", none⟩] "a1"
               (some (getRoomId "a1" "b1"))) "b1" (some (getRoomId "a1" "b1")), false, []⟩,
           [("a1", OutMsg.joinedRoom (getRoomId "a1" "b1") "b1"),
            ("b1", OutMsg.joinedRoom (getRoomId "a1" "b1") "a1")], []⟩ :=
  ⟨c5_room_symmetry.1 "b1" "a1",
   c5_room_symmetry.2 _ _ ⟨"b1", none⟩ _ _ (by decide) (by decide) (by decide)⟩

/-- C10: in `server.js` with the fallback store active, the object returned by
the fallback's `find` has no `sort` method, so the `get-history` handler
throws; the message wrapper's catch then replies to the requester with the
`error` envelope whose text is `Invalid JSON format.`, and no
`message-history` envelope is ever sent. -/
theorem c10_get_history_in_memory_fails (st : ServerState) (sender : Conn) (env : Env)
    (hmem : st.hasMongo = false) (hid : sender.clientId ≠ "") :
    handleClientMessage st sender .getHistory env = Except.error () ∧
    onMessage st sender (Except.ok .getHistory) env =
      ⟨st, [(sender.clientId, OutMsg.error "Invalid JSON format.")], []⟩ ∧
    ∀ h : List DbRecord,
      (sender.clientId, OutMsg.messageHistory h) ∉
        (onMessage st sender (Except.ok .getHistory) env).sends := by
  have hbeq : (sender.clientId == "") = false := by simp [hid]
  have h1 : handleClientMessage st sender .getHistory env = Except.error () := by
    simp [handleClientMessage, hbeq, hmem]
  refine ⟨h1, ?_, ?_⟩
  · simp only [onMessage, h1]
  · intro h hin
    simp only [onMessage, h1] at hin
    simp at hin

/-- C10 witness: one registered client requests history in in-memory mode. -/
theorem c10_get_history_in_memory_fails_witness :
    handleClientMessage ⟨[⟨"a1", none⟩], false, []⟩ ⟨"a1", none⟩ .getHistory
        ⟨"m1", 0, Except.ok []⟩ = Except.error () ∧
    onMessage ⟨[⟨"a1", none⟩], false, []⟩ ⟨"a1", none⟩ (Except.ok .getHistory)
        ⟨"m1", 0, Except.ok []⟩ =
      ⟨⟨[⟨"a1", none⟩], false, []⟩, [("a1", OutMsg.error "Invalid JSON format.")], []⟩ ∧
    ∀ h : List DbRecord,
      ("a1", OutMsg.messageHistory h) ∉
        (onMessage ⟨[⟨"a1", none⟩], false, []⟩ ⟨"a1", none⟩ (Except.ok .getHistory)
          ⟨"m1", 0, Except.ok []⟩).sends :=
  c10_get_history_in_memory_fails _ _ _ rfl (by decide)

/-- C4: a `broadcast` from a registered sender persists exactly one
`{senderId, payload, isBroadcast:true}` record with no `recipientId`, and the
fan-out sends the broadcast message to every other registered connection
exactly once (targets are pairwise distinct and cover every other client)
while the sender receives nothing. -/
theorem c4_broadcast_exclusion (st : ServerState) (sender : Conn) (payload : String) (env : Env)
    (hnd : (st.clients.map Conn.clientId).Nodup) (hid : sender.clientId ≠ "") :
    handleClientMessage st sender (.broadcast payload) env =
      .ok ⟨applyInsert st ⟨some env.newId, sender.clientId, none, payload, true, env.now⟩,
           broadcastToOthers st.clients sender.clientId
             (OutMsg.message sender.clientId payload (some true)),
           [⟨some env.newId, sender.clientId, none, payload, true, env.now⟩]⟩ ∧
    ((broadcastToOthers st.clients sender.clientId
        (OutMsg.message sender.clientId payload (some true))).map Prod.fst).Nodup ∧
    (∀ c ∈ st.clients, c.clientId ≠ sender.clientId →
      (c.clientId, OutMsg.message sender.clientId payload (some true)) ∈
        broadcastToOthers st.clients sender.clientId
          (OutMsg.message sender.clientId payload (some true))) ∧
    (∀ p ∈ broadcastToOthers st.clients sender.clientId
        (OutMsg.message sender.clientId payload (some true)),
      p.2 = OutMsg.message sender.clientId payload (some true) ∧ p.1 ≠ sender.clientId) := by
  have hor : orUnknown sender.clientId = sender.clientId := by simp [orUnknown, hid]
  refine ⟨by simp only [handleClientMessage, hor], ?_, ?_, ?_⟩
  · unfold broadcastToOthers
    rw [List.map_map]
    have hEq : (Prod.fst ∘ fun c : Conn =>
        (c.clientId, OutMsg.message sender.clientId payload (some true))) = Conn.clientId := rfl
    rw [hEq]
    exact List.Nodup.sublist ((List.filter_sublist _).map Conn.clientId) hnd
  · intro c hc hcne
    unfold broadcastToOthers
    apply List.mem_map_of_mem
    rw [List.mem_filter]
    exact ⟨hc, by simpa [bne_iff_ne] using hcne⟩
  · intro p hp
    unfold broadcastToOthers at hp
    rw [List.mem_map] at hp
    obtain ⟨c, hcf, hceq⟩ := hp
    rw [List.mem_filter] at hcf
    have hcne : c.clientId ≠ sender.clientId := by simpa [bne_iff_ne] using hcf.2
    subst hceq
    exact ⟨rfl, hcne⟩

/-- C4 witness: three registered clients; `a1` broadcasts, `b1` and `c1` are
each hit exactly once and `a1` not at all. -/
theorem c4_broadcast_exclusion_witness :
    ([⟨"a1", none⟩, ⟨"b1", none⟩, ⟨"c1", none⟩].map Conn.clientId).Nodup ∧
    ("a1" : String) ≠ "" ∧
    (handleClientMessage ⟨[⟨"a1", none⟩, ⟨"b1", none⟩, ⟨"c1", none⟩], false, []⟩ ⟨"a1", none⟩
        (.broadcast "p") ⟨"m1", 0, Except.ok []⟩ =
      .ok ⟨applyInsert ⟨[⟨"a1", none⟩, ⟨"b1", none⟩, ⟨"c1", none⟩], false, []⟩
             ⟨some "m1", "a1", none, "p", true, 0⟩,
           broadcastToOthers [⟨"a1", none⟩, ⟨"b1", none⟩, ⟨"c1", none⟩] "a1"
             (OutMsg.message "a1" "p" (some true)),
           [⟨some "m1", "a1", none, "p", true, 0⟩]⟩ ∧
     ((broadcastToOthers [⟨"a1", none⟩, ⟨"b1", none⟩, ⟨"c1", none⟩] "a1"
         (OutMsg.message "a1" "p" (some true))).map Prod.fst).Nodup ∧
     (∀ c ∈ ([⟨"a1", none⟩, ⟨"b1", none⟩, ⟨"c1", none⟩] : List Conn), c.clientId ≠ "a1" →
       (c.clientId, OutMsg.message "a1" "p" (some true)) ∈
         broadcastToOthers [⟨"a1", none⟩, ⟨"b1", none⟩, ⟨"c1", none⟩] "a1"
           (OutMsg.message "a1" "p" (some true))) ∧
     (∀ p ∈ broadcastToOthers [⟨"a1", none⟩, ⟨"b1", none⟩, ⟨"c1", none⟩] "a1"
         (OutMsg.message "a1" "p" (some true)),
       p.2 = OutMsg.message "a1" "p" (some true) ∧ p.1 ≠ "a1")) :=
  ⟨by decide, by decide,
   c4_broadcast_exclusion ⟨[⟨"a1", none⟩, ⟨"b1", none⟩, ⟨"c1", none⟩], false, []⟩ ⟨"a1", none⟩
     "p" ⟨"m1", 0, Except.ok []⟩ (by decide) (by decide)⟩

/-- C6: for a `room-message` — with no active room the sender alone gets an
`error` envelope and nothing else happens; with an active room shared by some
other registered connection, that participant (the one `findOtherParticipant`
returns, which is registered, shares the room and differs from the sender)
alone receives the message and nothing is persisted or mutated; with an
active room nobody else shares, nothing at all is sent or changed. -/
theorem c6_room_message (st : ServerState) (sender : Conn) (payload : String) (env : Env) :
    (sender.roomId = none →
      handleClientMessage st sender (.roomMessage payload) env =
        .ok ⟨st, [(sender.clientId, OutMsg.error "You are not in a room.")], []⟩) ∧
    (∀ r other, sender.roomId = some r →
      findOtherParticipant st.clients sender.clientId r = some other →
      other ∈ st.clients ∧ other.roomId = some r ∧ other.clientId ≠ sender.clientId ∧
      handleClientMessage st sender (.roomMessage payload) env =
        .ok ⟨st, [(other.clientId, OutMsg.message sender.clientId payload (some false))], []⟩) ∧
    (∀ r, sender.roomId = some r →
      (∀ c ∈ st.clients, ¬(c.roomId = some r ∧ c.clientId ≠ sender.clientId)) →
      handleClientMessage st sender (.roomMessage payload) env = .ok ⟨st, [], []⟩) := by
  refine ⟨?_, ?_, ?_⟩
  · intro h
    simp [handleClientMessage, h]
  · intro r other hr hf
    have hmem : other ∈ st.clients := List.mem_of_find?_eq_some hf
    have hp := List.find?_some hf
    simp only [Bool.and_eq_true, beq_iff_eq, bne_iff_ne] at hp
    exact ⟨hmem, hp.1, hp.2, by simp [handleClientMessage, hr, hf]⟩
  · intro r hr hnone
    have hf : findOtherParticipant st.clients sender.clientId r = none := by
      unfold findOtherParticipant
      rw [List.find?_eq_none]
      intro c hc
      simp only [Bool.and_eq_true, beq_iff_eq, bne_iff_ne]
      exact hnone c hc
    simp [handleClientMessage, hr, hf]

/-- C6 witness: `a1` and `b1` share room `a1-b1`; `a1` sends a room message
and only `b1` receives it. -/
theorem c6_room_message_witness :
    (⟨"b1", some "a1-b1"⟩ : Conn) ∈
      ([⟨"a1", some "a1-b1"⟩, ⟨"b1", some "a1-b1"⟩] : List Conn) ∧
    (some "a1-b1" : Option String) = some "a1-b1" ∧ ("b1" : String) ≠ "a1" ∧
    handleClientMessage ⟨[⟨"a1", some "a1-b1"⟩, ⟨"b1", some "a1-b1"⟩], false, []⟩
        ⟨"a1", some "a1-b1"⟩ (.roomMessage "hi") ⟨"m1", 0, Except.ok []⟩ =
      .ok ⟨⟨[⟨"a1", some "a1-b1"⟩, ⟨"b1", some "a1-b1"⟩], false, []⟩,
           [("b1", OutMsg.message "a1" "hi" (some false))], []⟩ :=
  (c6_room_message ⟨[⟨"a1", some "a1-b1"⟩, ⟨"b1", some "a1-b1"⟩], false, []⟩
    ⟨"a1", some "a1-b1"⟩ "hi" ⟨"m1", 0, Except.ok []⟩).2.1
    "a1-b1" ⟨"b1", some "a1-b1"⟩ rfl (by decide)

/-- C7: with the `MessagingHub` in-memory fallback active, after any insert
sequence longer than the capacity, a `get-history` reply (whatever limit the
handler passes) holds at most capacity-many records, namely the matching
records among the retained most-recent entries — a suffix of the full
matching history, the oldest entries having been evicted first. -/
theorem c7_in_memory_bound (inserts : List (DbRecord × String)) (requester : String) (n : Nat)
    (hcap : inserts.length > IN_MEMORY_HISTORY_LIMIT) :
    (hubGetHistoryReply (hubInsertAll [] inserts) requester n).length ≤
      IN_MEMORY_HISTORY_LIMIT ∧
    hubGetHistoryReply (hubInsertAll [] inserts) requester n =
      (lastN IN_MEMORY_HISTORY_LIMIT (storedRecords inserts)).filter
        (fun m => matchesOr ⟨requester, requester⟩ m) ∧
    List.IsSuffix (hubGetHistoryReply (hubInsertAll [] inserts) requester n)
      ((storedRecords inserts).filter (fun m => matchesOr ⟨requester, requester⟩ m)) := by
  have hall : hubInsertAll [] inserts = lastN IN_MEMORY_HISTORY_LIMIT (storedRecords inserts) := by
    simpa using hubInsertAll_eq_lastN inserts [] (by simp)
  have hreply : hubGetHistoryReply (hubInsertAll [] inserts) requester n =
      (hubInsertAll [] inserts).filter (fun m => matchesOr ⟨requester, requester⟩ m) := rfl
  refine ⟨?_, ?_, ?_⟩
  · rw [hreply, hall]
    have h1 : (lastN IN_MEMORY_HISTORY_LIMIT (storedRecords inserts)).length ≤
        IN_MEMORY_HISTORY_LIMIT := by
      simp only [lastN, List.length_drop]
      omega
    exact le_trans (List.length_filter_le _ _) h1
  · rw [hreply, hall]
  · rw [hreply, hall]
    exact filter_drop_suffix _ _ _

/-- C7 witness: eleven identical broadcast records inserted into the empty
fallback store, then a history query by `a1` with the in-memory limit. -/
theorem c7_in_memory_bound_witness :
    (List.replicate 11 ((⟨none, "a1", none, "p", true, 0⟩ : DbRecord), "i")).length >
      IN_MEMORY_HISTORY_LIMIT ∧
    ((hubGetHistoryReply
        (hubInsertAll [] (List.replicate 11 ((⟨none, "a1", none, "p", true, 0⟩ : DbRecord), "i")))
        "a1" 10).length ≤ IN_MEMORY_HISTORY_LIMIT ∧
     hubGetHistoryReply
        (hubInsertAll [] (List.replicate 11 ((⟨none, "a1", none, "p", true, 0⟩ : DbRecord), "i")))
        "a1" 10 =
       (lastN IN_MEMORY_HISTORY_LIMIT
         (storedRecords (List.replicate 11 ((⟨none, "a1", none, "p", true, 0⟩ : DbRecord), "i")))).filter
         (fun m => matchesOr ⟨"a1", "a1"⟩ m) ∧
     List.IsSuffix
       (hubGetHistoryReply
         (hubInsertAll [] (List.replicate 11 ((⟨none, "a1", none, "p", true, 0⟩ : DbRecord), "i")))
         "a1" 10)
       ((storedRecords (List.replicate 11 ((⟨none, "a1", none, "p", true, 0⟩ : DbRecord), "i"))).filter
         (fun m => matchesOr ⟨"a1", "a1"⟩ m))) :=
  ⟨by decide,
   c7_in_memory_bound (List.replicate 11 ((⟨none, "a1", none, "p", true, 0⟩ : DbRecord), "i"))
     "a1" 10 (by decide)⟩

end Waelio
